import Mathlib

/-!
Shallow embedding of the single-file currency-conversion widget
(`src/App.jsx`).  The React component's state variables become fields of
`AppState`; each event handler becomes a pure function from state (and the
event's payload) to state.  JavaScript numbers are modelled as exact
rationals (`ℚ`): the modelled `parseFloat` covers the optional-sign
decimal-digit fragment of the JavaScript builtin (leading whitespace,
`Infinity`, hexadecimal and exponent forms are outside the inputs this
program can produce), and `Number.prototype.toFixed(2)` is modelled as
round-half-up to an integer count of hundredths followed by decimal
formatting, which agrees with the ECMAScript `toFixed` algorithm on exact
decimal values.  The rate table fetched from the remote JSON document is an
association list, preserving the iteration order of `Object.keys` (currency
codes are non-integer-like keys, so `Object.keys` returns insertion order).
-/

namespace CurrencyConverter

/-- Numeric value of a decimal digit character. -/
def digitVal (c : Char) : ℕ := c.toNat - 48

/-- Value of a digit string read as a natural number, as JavaScript does for
the integer part of a parsed literal. -/
def natOfDigits (cs : List Char) : ℕ := cs.foldl (fun a c => 10 * a + digitVal c) 0

/-- Unsigned part of `parseFloat`, kept as digit data: the longest digit
prefix, optionally a single decimal point and a further longest digit run,
yielding `(value of all digits read as an integer, number of fraction
digits)`; `none` models `NaN` (no digit at all).  Trailing non-numeric
characters are ignored, as in JavaScript. -/
def parseMantissa (cs : List Char) : Option (ℕ × ℕ) :=
  let ip := cs.takeWhile Char.isDigit
  let rest := cs.dropWhile Char.isDigit
  match rest with
  | c :: rest2 =>
      if c = '.' then
        let fp := rest2.takeWhile Char.isDigit
        if ip.isEmpty && fp.isEmpty then none
        else some (natOfDigits (ip ++ fp), fp.length)
      else if ip.isEmpty then none else some (natOfDigits ip, 0)
  | [] => if ip.isEmpty then none else some (natOfDigits ip, 0)

/-- Sign and mantissa data of a parsed literal: `(negative?, digits, fraction length)`. -/
def parseParts (s : String) : Option (Bool × ℕ × ℕ) :=
  match s.toList with
  | [] => none
  | c :: cs =>
      if c = '-' then (parseMantissa cs).map (fun p => (true, p))
      else if c = '+' then (parseMantissa cs).map (fun p => (false, p))
      else (parseMantissa (c :: cs)).map (fun p => (false, p))

/-- Rational value of parsed sign-and-mantissa data: a decimal literal with
`k` fraction digits and digit value `n` denotes `n / 10 ^ k`. -/
def partsVal (p : Bool × ℕ × ℕ) : ℚ :=
  (if p.1 then -1 else 1) * (p.2.1 : ℚ) / 10 ^ p.2.2

/-- Model of the JavaScript `parseFloat` builtin on the decimal fragment:
an optional sign followed by a mantissa; `none` models `NaN`. -/
def parseFloat (s : String) : Option ℚ :=
  (parseParts s).map partsVal

/-- Hundredths-rounding of `toFixed(2)`: the integer `n` minimising the
distance of `n / 100` to `q`, ties to the larger `n` (round half up), which
is Mathlib's `round`. -/
def round2 (q : ℚ) : ℤ := round (q * 100)

/-- Decimal rendering of a count of hundredths, e.g. `90 ↦ "0.90"`. -/
def formatCentiNat (n : ℕ) : String :=
  toString (n / 100) ++ "." ++ (if n % 100 < 10 then "0" else "") ++ toString (n % 100)

/-- Model of `x.toFixed(2)` for a finite JavaScript number `x`. -/
def toFixed2 (q : ℚ) : String :=
  if round2 q < 0 then "-" ++ formatCentiNat (round2 q).natAbs
  else formatCentiNat (round2 q).natAbs

/-- State of the component: one field per `useState` variable, plus a ghost
counter `fetchCount` recording how many times the mount-time network fetch
has been issued. -/
structure AppState where
  amount : String
  targetCurrency : String
  convertedAmount : Option String
  rates : List (String × ℚ)
  date : Option String
  loading : Bool
  error : Option String
  fetchCount : ℕ
  deriving Repr, DecidableEq

/-- Initial state of the component, from the `useState` initialisers. -/
def initState : AppState :=
  { amount := "1", targetCurrency := "", convertedAmount := none,
    rates := [], date := none, loading := true, error := none, fetchCount := 0 }

/-- Outcome of the single network fetch, as observed by
`fetchCurrencyData`: a parsed successful response, a non-success HTTP
status (`!response.ok`), a rejection carrying an `Error` with a message, or
a thrown value that is not an `Error` instance. -/
inductive FetchResult where
  | ok (date : String) (usd : List (String × ℚ))
  | httpError
  | jsError (msg : String)
  | jsThrowNonError
  deriving Repr, DecidableEq

/-- Message of the `Error` thrown on a non-success HTTP status. -/
def httpErrorMsg : String := "Network response was not ok. Please try again later."

/-- Embedding of `fetchCurrencyData`: set loading, clear the error, then on
success store date and rates and default the target currency to the first
key of the mapping when it is non-empty; on any failure store the error
message; finally clear loading. -/
def fetchCurrencyData (s : AppState) (r : FetchResult) : AppState :=
  let s1 := { s with loading := true, error := none, fetchCount := s.fetchCount + 1 }
  let s2 :=
    match r with
    | .ok d usd =>
        let s' := { s1 with date := some d, rates := usd }
        match usd with
        | [] => s'
        | (c, _) :: _ => { s' with targetCurrency := c }
    | .httpError => { s1 with error := some httpErrorMsg }
    | .jsError m => { s1 with error := some m }
    | .jsThrowNonError => { s1 with error := some "An unknown error occurred." }
  { s2 with loading := false }

/-- Alert text of the amount-validation failure. -/
def amountAlertMsg : String := "Please enter a valid positive amount."

/-- Alert text of the missing-target-currency failure. -/
def currencyAlertMsg : String := "Please select a target currency."

/-- Condition `!amount || isNaN(parseFloat(amount)) || parseFloat(amount) <= 0`:
the empty string is falsy, a failed parse is `NaN`, and a non-positive value
is rejected. -/
def amountInvalid (a : String) : Bool :=
  a == "" ||
    match parseFloat a with
    | none => true
    | some q => decide (q ≤ 0)

/-- Embedding of `handleConvert`.  It first resets `convertedAmount` to
`null`, then validates the amount, then the target currency, raising a
blocking `alert` (returned as the list of alert messages) and stopping on
the first failure; otherwise it stores `(parseFloat(amount) * rate).toFixed(2)`.
When the selected currency has no rate, the JavaScript product is `NaN` and
`toFixed` renders `"NaN"`. -/
def handleConvert (s : AppState) : AppState × List String :=
  let s1 := { s with convertedAmount := none }
  if amountInvalid s1.amount then
    (s1, [amountAlertMsg])
  else if s1.targetCurrency == "" then
    (s1, [currencyAlertMsg])
  else
    match List.lookup s1.targetCurrency s1.rates with
    | some r =>
        match parseFloat s1.amount with
        | some q => ({ s1 with convertedAmount := some (toFixed2 (q * r)) }, [])
        | none => ({ s1 with convertedAmount := some "NaN" }, [])
    | none => ({ s1 with convertedAmount := some "NaN" }, [])

/-- Executable form of the test `/^\d*\.?\d*$/.test(value)`: digits, then
optionally a single decimal point followed by digits. -/
def matchesAmountPattern (s : String) : Bool :=
  go s.toList
where
  /-- Character-list matcher for the pattern. -/
  go : List Char → Bool
  | [] => true
  | c :: rest =>
      if c = '.' then rest.all Char.isDigit
      else if c.isDigit then go rest
      else false

/-- Declarative reading of the regular expression `^\d*\.?\d*$` taken from
the specification's words: the whole string is a digit run, optionally
followed by a single decimal point and a second digit run. -/
def SpecAmountPattern (s : String) : Prop :=
  ∃ d1 d2 : List Char, (∀ c ∈ d1, c.isDigit) ∧ (∀ c ∈ d2, c.isDigit) ∧
    (s.toList = d1 ++ d2 ∨ s.toList = d1 ++ '.' :: d2)

/-- Embedding of `handleAmountChange`: the field becomes the offered value
exactly when the value passes the pattern test; otherwise the event is
dropped and the state is unchanged. -/
def handleAmountChange (s : AppState) (v : String) : AppState :=
  if matchesAmountPattern v then { s with amount := v } else s

/-- User events available after mount: typing in the amount field, choosing
a currency in the selector, and pressing the convert button. -/
inductive Event where
  | amountChange (v : String)
  | selectCurrency (c : String)
  | convert
  deriving Repr, DecidableEq

/-- One user event handled to completion. -/
def step (s : AppState) : Event → AppState
  | .amountChange v => handleAmountChange s v
  | .selectCurrency c => { s with targetCurrency := c }
  | .convert => (handleConvert s).1

/-- A whole program run: mount fires the one fetch (with outcome `r`), then
the user events are handled in order. -/
def run (r : FetchResult) (evs : List Event) : AppState :=
  evs.foldl step (fetchCurrencyData initState r)

/-- Abstract fetch lifecycle phase of a state. -/
inductive FetchPhase where
  | loading
  | success
  | failure
  deriving Repr, DecidableEq

/-- Phase read off the state: `loading` while the flag is set, then
`failure` when an error message is recorded, else `success`. -/
def fetchState (s : AppState) : FetchPhase :=
  if s.loading then .loading
  else if s.error.isSome then .failure
  else .success

/-- The selector's `disabled={loading}` attribute. -/
def selectorDisabled (s : AppState) : Bool := s.loading

/-- Model of `String.prototype.toUpperCase` on the ASCII currency codes:
each character mapped to its upper-case form. -/
def jsToUpperCase (s : String) : String := String.mk (s.toList.map Char.toUpper)

/-- Option labels rendered in the selector: a placeholder while loading,
else `Object.keys(rates)` uppercased in iteration order. -/
def selectorOptions (s : AppState) : List String :=
  if s.loading then ["Loading currencies..."]
  else s.rates.map (fun p => jsToUpperCase p.1)

/-- Error paragraph: rendered when `error` is truthy (a non-empty string). -/
def errorDisplay (s : AppState) : Option String :=
  match s.error with
  | some m => if m == "" then none else some m
  | none => none

/-- Footer date note: rendered when `date` is truthy and `error` is falsy. -/
def footerDate (s : AppState) : Option String :=
  match s.date with
  | some d => if d == "" || !(errorDisplay s).isNone then none else some d
  | none => none


/-! Helper lemmas, shared across the development. -/

/-- An all-digit character list satisfies the pattern matcher. -/
theorem go_of_all_digits (cs : List Char) (h : ∀ c ∈ cs, c.isDigit) :
    matchesAmountPattern.go cs = true := by
  induction cs with
  | nil => rfl
  | cons c rest ih =>
      have hc : c.isDigit := h c (List.mem_cons_self c rest)
      have hdot : ¬ c = '.' := by
        intro he; rw [he] at hc; exact absurd hc (by decide)
      simp [matchesAmountPattern.go, hdot, hc]
      exact ih (fun d hd => h d (List.mem_cons_of_mem c hd))

/-- The executable pattern test agrees with the declarative reading of the
regular expression taken from the specification. -/
theorem matches_iff (v : String) :
    matchesAmountPattern v = true ↔ SpecAmountPattern v := by
  constructor
  · intro h
    unfold matchesAmountPattern at h
    unfold SpecAmountPattern
    generalize hcs : v.toList = cs at h ⊢
    clear hcs
    induction cs with
    | nil => exact ⟨[], [], by simp, by simp, Or.inl rfl⟩
    | cons c rest ih =>
        by_cases hdot : c = '.'
        · subst hdot
          simp [matchesAmountPattern.go] at h
          exact ⟨[], rest, by simp, by simpa [List.all_eq_true] using h, Or.inr rfl⟩
        · by_cases hdig : c.isDigit
          · rw [matchesAmountPattern.go] at h
            simp [hdot, hdig] at h
            obtain ⟨d1, d2, h1, h2, h3⟩ := ih h
            have hcons : ∀ a ∈ c :: d1, a.isDigit := by
              intro a ha
              rcases List.mem_cons.1 ha with h | h
              · rw [h]; exact hdig
              · exact h1 a h
            cases h3 with
            | inl he => exact ⟨c :: d1, d2, hcons, h2, Or.inl (by simp [he])⟩
            | inr he => exact ⟨c :: d1, d2, hcons, h2, Or.inr (by simp [he])⟩
          · rw [matchesAmountPattern.go] at h
            simp [hdot, hdig] at h
  · rintro ⟨d1, d2, h1, h2, h3⟩
    unfold matchesAmountPattern
    cases h3 with
    | inl he =>
        rw [he]
        exact go_of_all_digits _ (by intro c hc; rcases List.mem_append.1 hc with h | h
                                     exacts [h1 c h, h2 c h])
    | inr he =>
        rw [he]
        clear he
        induction d1 with
        | nil => simp [matchesAmountPattern.go, List.all_eq_true]; exact fun c hc => h2 c hc
        | cons c rest ih =>
            have hc : c.isDigit := h1 c (List.mem_cons_self c rest)
            have hdot : ¬ c = '.' := by
              intro hq; rw [hq] at hc; exact absurd hc (by decide)
            rw [List.cons_append, matchesAmountPattern.go]
            simp [hdot, hc]
            exact ih (fun d hd => h1 d (List.mem_cons_of_mem c hd))

/-- The empty string parses to `NaN`. -/
theorem parseFloat_empty : parseFloat "" = none := rfl

/-- Amount validation rejects `"0"`: it parses, but not to a positive value. -/
theorem amountInvalid_zero : amountInvalid "0" = true := by
  have hp : parseParts "0" = some (false, 0, 0) := by decide
  simp [amountInvalid, parseFloat, hp, partsVal]

/-- Amount validation rejects `"-5"`: it parses to a negative value. -/
theorem amountInvalid_neg5 : amountInvalid "-5" = true := by
  have hp : parseParts "-5" = some (true, 5, 0) := by decide
  simp [amountInvalid, parseFloat, hp, partsVal]

/-- Amount validation rejects the empty string (it is falsy). -/
theorem amountInvalid_empty : amountInvalid "" = true := by decide

/-- The string `"2"` parses to the rational `2`. -/
theorem parseFloat_two : parseFloat "2" = some 2 := by
  have hp : parseParts "2" = some (false, 2, 0) := by decide
  simp [parseFloat, hp, partsVal]

/-- Evaluation of `toFixed(2)` at the product `2 * 3`. -/
theorem toFixed2_six : toFixed2 ((2 : ℚ) * 3) = "6.00" := by
  have h : round2 ((2 : ℚ) * 3) = 600 := by norm_num [round2, round_eq]
  simp [toFixed2, h]
  decide

/-- A user event never changes the fetch-related state: the loading flag,
the error message, the rate table, the date, and the fetch counter are all
untouched by typing, selecting, and converting. -/
theorem step_preserves_fetch (s : AppState) (e : Event) :
    (step s e).loading = s.loading ∧ (step s e).error = s.error ∧
    (step s e).rates = s.rates ∧ (step s e).date = s.date ∧
    (step s e).fetchCount = s.fetchCount := by
  cases e with
  | amountChange v =>
      by_cases h : matchesAmountPattern v <;> simp [step, handleAmountChange, h]
  | selectCurrency c => simp [step]
  | convert =>
      by_cases h1 : amountInvalid s.amount
      · simp [step, handleConvert, h1]
      · by_cases h2 : s.targetCurrency = ""
        · simp [step, handleConvert, h1, h2]
        · cases hl : List.lookup s.targetCurrency s.rates with
          | none => simp [step, handleConvert, h1, h2, hl]
          | some r =>
              cases hp : parseFloat s.amount with
              | none => simp [step, handleConvert, h1, h2, hl, hp]
              | some q => simp [step, handleConvert, h1, h2, hl, hp]

/-- Any sequence of user events preserves the loading flag, the error
message and the fetch counter. -/
theorem foldl_preserves_fetch (evs : List Event) (s : AppState) :
    (evs.foldl step s).loading = s.loading ∧ (evs.foldl step s).error = s.error ∧
    (evs.foldl step s).fetchCount = s.fetchCount := by
  induction evs generalizing s with
  | nil => exact ⟨rfl, rfl, rfl⟩
  | cons e evs ih =>
      have h1 := step_preserves_fetch s e
      have h2 := ih (step s e)
      simp only [List.foldl_cons]
      exact ⟨h2.1.trans h1.1, h2.2.1.trans h1.2.1, h2.2.2.trans h1.2.2.2.2⟩

/-- The fetch handler always ends with the loading flag cleared and the
fetch counter incremented once, whatever the outcome. -/
theorem fetchCurrencyData_fields (s : AppState) (r : FetchResult) :
    (fetchCurrencyData s r).loading = false ∧
    (fetchCurrencyData s r).fetchCount = s.fetchCount + 1 := by
  cases r with
  | ok d usd =>
      cases usd with
      | nil => simp [fetchCurrencyData]
      | cons p rest => cases p; simp [fetchCurrencyData]
  | httpError => simp [fetchCurrencyData]
  | jsError m => simp [fetchCurrencyData]
  | jsThrowNonError => simp [fetchCurrencyData]

/-! Claim theorems. -/

/-- C1: for every amount string that parses to a positive number and every
currency code with a rate in the table, the convert action stores the
product rounded to two decimal places (`toFixed2`, round half up on
hundredths) as the conversion result, still paired with the selected
currency code, and raises no alert. -/
theorem c1_convert_stores_rounded_product (s : AppState) (q r : ℚ)
    (hq : parseFloat s.amount = some q) (hpos : 0 < q)
    (hc : s.targetCurrency ≠ "")
    (hr : List.lookup s.targetCurrency s.rates = some r) :
    (handleConvert s).1.convertedAmount = some (toFixed2 (q * r)) ∧
    (handleConvert s).1.targetCurrency = s.targetCurrency ∧
    (handleConvert s).2 = [] := by
  have hne : s.amount ≠ "" := by
    intro he
    rw [he, parseFloat_empty] at hq
    exact Option.noConfusion hq
  have hinv : amountInvalid s.amount = false := by
    simp [amountInvalid, hq, hne]
    exact hpos
  unfold handleConvert
  simp [hinv, hc, hr, hq]

/-- Concrete state exercising a successful conversion: amount `"2"`, rate
`3` for `"eur"`. -/
def c1State : AppState :=
  { initState with
    amount := "2"
    targetCurrency := "eur"
    rates := [("eur", 3)] }

/-- Witness for C1: converting `"2"` at rate `3` stores `"6.00"`. -/
theorem c1_witness :
    parseFloat "2" = some (2 : ℚ) ∧ (0 : ℚ) < 2 ∧
    List.lookup "eur" c1State.rates = some (3 : ℚ) ∧
    (handleConvert c1State).1.convertedAmount = some "6.00" ∧
    (handleConvert c1State).1.targetCurrency = "eur" := by
  have h := c1_convert_stores_rounded_product c1State 2 3
    (by simp [c1State, initState]; exact parseFloat_two)
    (by norm_num)
    (by simp [c1State, initState])
    (by simp [c1State, initState])
  refine ⟨parseFloat_two, by norm_num, by simp [c1State, initState], ?_, ?_⟩
  · rw [h.1, toFixed2_six]
  · rw [h.2.1]; simp [c1State, initState]

/-- State with a previously stored conversion result and the invalid amount
`"0"`, used to refute C2 as stated. -/
def c2State : AppState :=
  { initState with
    amount := "0"
    targetCurrency := "eur"
    rates := [("eur", 9/10)]
    convertedAmount := some "0.90" }

/-- C2 counterexample: a convert action whose validation fails does mutate
the conversion result when one was stored before, because the handler
resets it to null before validating. -/
theorem c2_counterexample_mutates :
    (handleConvert c2State).1.convertedAmount ≠ c2State.convertedAmount := by
  unfold handleConvert
  simp [c2State, initState, amountInvalid_zero]

/-- C2 amended: a convert action whose validation fails (non-positive,
non-parsing or empty amount, or no selected currency) raises exactly one
blocking alert and ends with the conversion result null; every other state
field is untouched.  It does not leave the previous conversion result in
place: it clears it. -/
theorem c2_validation_aborts (s : AppState)
    (h : amountInvalid s.amount = true ∨ s.targetCurrency = "") :
    (handleConvert s).2.length = 1 ∧
    (handleConvert s).1.convertedAmount = none ∧
    (handleConvert s).1.amount = s.amount ∧
    (handleConvert s).1.targetCurrency = s.targetCurrency ∧
    (handleConvert s).1.rates = s.rates ∧
    (handleConvert s).1.date = s.date ∧
    (handleConvert s).1.loading = s.loading ∧
    (handleConvert s).1.error = s.error := by
  unfold handleConvert
  rcases h with h | h
  · simp [h]
  · by_cases ha : amountInvalid s.amount
    · simp [ha]
    · simp [ha, h]

/-- Witness for the amended C2, at the amounts named by the claim. -/
theorem c2_witness :
    ((handleConvert c2State).2.length = 1 ∧
     (handleConvert c2State).1.convertedAmount = none) ∧
    amountInvalid "0" = true ∧ amountInvalid "-5" = true ∧
    amountInvalid "" = true := by
  have h := c2_validation_aborts c2State
    (Or.inl (by simp [c2State, initState]; exact amountInvalid_zero))
  exact ⟨⟨h.1, h.2.1⟩, amountInvalid_zero, amountInvalid_neg5, amountInvalid_empty⟩

/-- C3: the amount-field filter accepts a value exactly when it matches
`^\d*\.?\d*$` (read declaratively as `SpecAmountPattern`): an accepted
value becomes the field content, a rejected value leaves the whole state
unchanged, and the empty string and a lone decimal point are accepted. -/
theorem c3_filter_accepts_iff_pattern (s : AppState) (v : String) :
    (SpecAmountPattern v → handleAmountChange s v = { s with amount := v }) ∧
    (¬ SpecAmountPattern v → handleAmountChange s v = s) ∧
    SpecAmountPattern "" ∧ SpecAmountPattern "." := by
  refine ⟨?_, ?_, (matches_iff "").1 (by decide), (matches_iff ".").1 (by decide)⟩
  · intro h
    have hm : matchesAmountPattern v = true := (matches_iff v).2 h
    simp [handleAmountChange, hm]
  · intro h
    have hm : matchesAmountPattern v = false := by
      by_cases hb : matchesAmountPattern v = true
      · exact absurd ((matches_iff v).1 hb) h
      · simpa using hb
    simp [handleAmountChange, hm]

/-- Witness for C3: `"12.5"` is accepted, `"1a"` is rejected unchanged. -/
theorem c3_witness :
    handleAmountChange initState "12.5" = { initState with amount := "12.5" } ∧
    handleAmountChange initState "1a" = initState :=
  ⟨(c3_filter_accepts_iff_pattern initState "12.5").1 ((matches_iff "12.5").1 (by decide)),
   (c3_filter_accepts_iff_pattern initState "1a").2.1 (fun h =>
      absurd ((matches_iff "1a").2 h) (by decide))⟩

/-- C4 counterexample: after a fetch that fails with a non-success HTTP
status, the selector is not disabled, because the `finally` block clears
the loading flag and `disabled={loading}` follows it. -/
theorem c4_counterexample_selector_enabled :
    selectorDisabled (fetchCurrencyData initState FetchResult.httpError) = false := by decide

/-- C4 amended: a fetch returning a non-success HTTP status ends in the
failure state with the fixed non-empty error message displayed; the
selector is no longer disabled once the fetch completes (loading is
cleared), but it lists no currency options since the rate table stays
empty. -/
theorem c4_http_failure_state :
    fetchState (fetchCurrencyData initState FetchResult.httpError) = FetchPhase.failure ∧
    errorDisplay (fetchCurrencyData initState FetchResult.httpError) = some httpErrorMsg ∧
    httpErrorMsg ≠ "" ∧
    selectorDisabled (fetchCurrencyData initState FetchResult.httpError) = false ∧
    selectorOptions (fetchCurrencyData initState FetchResult.httpError) = [] := by decide

/-- The successful fetch named by C5. -/
def c5Fetch : FetchResult := .ok "2024-01-01" [("eur", 9/10), ("gbp", 4/5)]

/-- C5 counterexample: the selector options after fetching
`{date:"2024-01-01", usd:{eur:0.9, gbp:0.8}}` are not `["EUR", "GBR"]`
(the uppercasing of `"gbp"` is `"GBP"`). -/
theorem c5_counterexample_options :
    selectorOptions (fetchCurrencyData initState c5Fetch) ≠ ["EUR", "GBR"] := by decide

/-- C5 amended: after that fetch the selector lists exactly
`["EUR", "GBP"]`, uppercased in the iteration order of the fetched
mapping, the footer shows `"2024-01-01"`, and the default target currency
is `"eur"`. -/
theorem c5_success_rendering :
    selectorOptions (fetchCurrencyData initState c5Fetch) = ["EUR", "GBP"] ∧
    footerDate (fetchCurrencyData initState c5Fetch) = some "2024-01-01" ∧
    (fetchCurrencyData initState c5Fetch).targetCurrency = "eur" := by decide

/-- C6: a successful fetch with a non-empty rate mapping sets the default
target currency to the first key of the mapping in iteration order. -/
theorem c6_default_currency_is_first_key (s : AppState) (d c : String) (x : ℚ)
    (rest : List (String × ℚ)) :
    (fetchCurrencyData s (FetchResult.ok d ((c, x) :: rest))).targetCurrency = c := by
  simp [fetchCurrencyData]

/-- C7: the fetch lifecycle is one-way and the fetch is issued exactly
once: the program starts loading, the single mount-time fetch moves it to
success or failure, no sequence of user events changes the phase
afterwards, and the fetch counter stays at one for the whole run. -/
theorem c7_lifecycle_one_way (r : FetchResult) (evs : List Event) :
    fetchState initState = FetchPhase.loading ∧
    (fetchState (fetchCurrencyData initState r) = FetchPhase.success ∨
      fetchState (fetchCurrencyData initState r) = FetchPhase.failure) ∧
    fetchState (run r evs) = fetchState (fetchCurrencyData initState r) ∧
    (run r evs).fetchCount = 1 := by
  have hf := fetchCurrencyData_fields initState r
  have hp := foldl_preserves_fetch evs (fetchCurrencyData initState r)
  refine ⟨rfl, ?_, ?_, ?_⟩
  · cases he : (fetchCurrencyData initState r).error <;>
      simp [fetchState, hf.1, he]
  · show fetchState (evs.foldl step (fetchCurrencyData initState r)) = _
    simp [fetchState, hp.1, hp.2.1]
  · show (evs.foldl step (fetchCurrencyData initState r)).fetchCount = 1
    rw [hp.2.2, hf.2]
    simp [initState]

/-- C8: the convert action is a deterministic function of the amount
string, the selected currency and the rate table: two states agreeing on
those three fields produce the same stored result and the same alerts. -/
theorem c8_convert_deterministic (s t : AppState) (ha : s.amount = t.amount)
    (hc : s.targetCurrency = t.targetCurrency) (hr : s.rates = t.rates) :
    (handleConvert s).1.convertedAmount = (handleConvert t).1.convertedAmount ∧
    (handleConvert s).2 = (handleConvert t).2 := by
  by_cases h1 : amountInvalid t.amount
  · simp [handleConvert, ha, hc, hr, h1]
  · by_cases h2 : t.targetCurrency = ""
    · simp [handleConvert, ha, hc, hr, h1, h2]
    · cases hl : List.lookup t.targetCurrency t.rates with
      | none => simp [handleConvert, ha, hc, hr, h1, h2, hl]
      | some r =>
          cases hp : parseFloat t.amount with
          | none => simp [handleConvert, ha, hc, hr, h1, h2, hl, hp]
          | some q => simp [handleConvert, ha, hc, hr, h1, h2, hl, hp]

/-- Witness for C8: two states differing only in the loading flag convert
identically. -/
theorem c8_witness :
    (handleConvert { initState with amount := "2" }).1.convertedAmount =
      (handleConvert { initState with amount := "2", loading := false }).1.convertedAmount :=
  (c8_convert_deterministic { initState with amount := "2" }
    { initState with amount := "2", loading := false } rfl rfl rfl).1

/-- C9: the convert action clears the stored conversion result before
validating, so after any invocation whose validation fails the result is
null, whatever was stored before. -/
theorem c9_failed_validation_leaves_null (s : AppState)
    (h : amountInvalid s.amount = true ∨ s.targetCurrency = "") :
    (handleConvert s).1.convertedAmount = none := by
  unfold handleConvert
  rcases h with h | h
  · simp [h]
  · by_cases ha : amountInvalid s.amount
    · simp [ha]
    · simp [ha, h]

/-- Witness for C9: a stale result `"9.99"` is cleared by a convert on the
invalid amount `"0"`. -/
theorem c9_witness :
    (handleConvert { initState with amount := "0", convertedAmount := some "9.99" }).1.convertedAmount = none :=
  c9_failed_validation_leaves_null _ (Or.inl (by simp [initState]; exact amountInvalid_zero))

/-- C10: the amount is validated before the target currency: when both
fail, only the amount alert is raised. -/
theorem c10_amount_checked_first (s : AppState)
    (ha : amountInvalid s.amount = true) (_hc : s.targetCurrency = "") :
    (handleConvert s).2 = [amountAlertMsg] := by
  unfold handleConvert
  simp [ha]

/-- Witness for C10: amount `"-5"` with no selected currency raises only
the amount alert. -/
theorem c10_witness :
    (handleConvert { initState with amount := "-5" }).2 = [amountAlertMsg] :=
  c10_amount_checked_first _ (by simp [initState]; exact amountInvalid_neg5)
    (by simp [initState])

end CurrencyConverter
